import Mathlib

/-!
Verification development for the customer-management backend
(src/backend/{main,models,schemas,ai_service,database}.py).

The Python handlers are embedded as pure Lean functions over an explicit
database state (`DB`).  SQLAlchemy tables become lists of records, the
per-request session becomes explicit state passing, and a handler that
raises `HTTPException` is modelled as an `Except ApiError` result computed
before any state change (mirroring the source, which raises its 404 before
any `db.add`/`db.commit`).
-/

set_option maxHeartbeats 1000000

namespace CustomerMgmt

/-! ## String utilities mirroring Python / SQL primitives -/

/-- Python `str.strip()` on the character list of a string: whitespace is
removed from both ends. -/
def pyStripList (l : List Char) : List Char :=
  ((l.dropWhile Char.isWhitespace).reverse.dropWhile Char.isWhitespace).reverse

/-- Python `str.strip()`. -/
def pyStrip (s : String) : String := ⟨pyStripList s.data⟩

/-- Python `x or default` on an `Optional[str]` value: the default is used
when the value is `None` or the empty string (both falsy). -/
def pyOrStr (x : Option String) (d : String) : String :=
  match x with
  | none => d
  | some s => if s = "" then d else s

/-- A calendar date, as stored in the `meeting.meeting_date` column. -/
structure DateD where
  year : Nat
  month : Nat
  day : Nat
deriving DecidableEq

/-- Zero-pad a natural number to the given width. -/
def padNum (width : Nat) (n : Nat) : String :=
  let s := toString n
  ⟨List.replicate (width - s.length) '0' ++ s.data⟩

/-- Python `date.strftime('%Y-%m-%d')`. -/
def formatDate (d : DateD) : String :=
  padNum 4 d.year ++ "-" ++ padNum 2 d.month ++ "-" ++ padNum 2 d.day

/-- ASCII lower-casing of one character, as done by SQL `lower()` /
`ILIKE` on ASCII input (explicit table of the 26 uppercase letters). -/
def lowerChar (c : Char) : Char :=
  match c with
  | 'A' => 'a' | 'B' => 'b' | 'C' => 'c' | 'D' => 'd' | 'E' => 'e'
  | 'F' => 'f' | 'G' => 'g' | 'H' => 'h' | 'I' => 'i' | 'J' => 'j'
  | 'K' => 'k' | 'L' => 'l' | 'M' => 'm' | 'N' => 'n' | 'O' => 'o'
  | 'P' => 'p' | 'Q' => 'q' | 'R' => 'r' | 'S' => 's' | 'T' => 't'
  | 'U' => 'u' | 'V' => 'v' | 'W' => 'w' | 'X' => 'x' | 'Y' => 'y'
  | 'Z' => 'z'
  | c => c

/-- Lower-case every character of a string. -/
def lowerStr (s : String) : String := ⟨s.data.map lowerChar⟩

/-- `suffixAny f s` holds when `f` accepts some suffix of `s` (including
`s` itself and the empty suffix). -/
def suffixAny (f : List Char → Bool) : List Char → Bool
  | [] => f []
  | d :: s2 => f (d :: s2) || suffixAny f s2

/-- SQL `LIKE` pattern matching over characters: `%` matches any sequence
(the rest of the pattern is tried on every suffix), `_` matches any single
character, a backslash escapes the next pattern character; every other
character matches itself. -/
def likeMatch : List Char → List Char → Bool
  | [], s => s.isEmpty
  | a :: p, s =>
    if a = '%' then
      suffixAny (likeMatch p) s
    else if a = '_' then
      (match s with
       | [] => false
       | _ :: s2 => likeMatch p s2)
    else if a = '\\' then
      (match p with
       | [] => false
       | c :: p2 =>
         match s with
         | [] => false
         | d :: s2 => c = d && likeMatch p2 s2)
    else
      (match s with
       | [] => false
       | d :: s2 => a = d && likeMatch p s2)

/-- SQL `ILIKE`: case-insensitive `LIKE` (both sides lower-cased). -/
def sqlIlike (pattern_ : String) (s : String) : Bool :=
  likeMatch (lowerStr pattern_).data (lowerStr s).data

/-- `startsWithL p l` holds when the list `p` is an initial segment of `l`;
models Python `str.startswith`. -/
def startsWithL : List Char → List Char → Bool
  | [], _ => true
  | _ :: _, [] => false
  | a :: p, b :: l => a = b && startsWithL p l

/-- Python `s.startswith(p)`. -/
def strStartsWith (s p : String) : Bool := startsWithL p.data s.data

/-- `containsL n h` holds when `n` occurs contiguously inside `h`
(substring occurrence). -/
def containsL (n : List Char) : List Char → Bool
  | [] => startsWithL n []
  | h@(_ :: hs) => startsWithL n h || containsL n hs

/-- Case-insensitive substring test between strings. -/
def containsCI (needle hay : String) : Bool :=
  containsL (lowerStr needle).data (lowerStr hay).data

/-- A character is a `LIKE` metacharacter. -/
def isWild (c : Char) : Prop := c = '%' ∨ c = '_' ∨ c = '\\'

instance (c : Char) : Decidable (isWild c) := by
  unfold isWild
  infer_instance

/-! ## Data model (src/backend/models.py)

Each SQLAlchemy table becomes a structure; nullable columns become
`Option`; the `Numeric(14,2)` ARR amount is modelled as an integer number
of cents; generated UUID identifiers are modelled as naturals drawn from a
`next_id` counter in the database state. -/

structure Customer where
  id : Nat
  name : String
  logo_url : Option String
  arr_usd : Option Int
  notes : Option String
  created_by : Option Nat
deriving DecidableEq

structure Contact where
  id : Nat
  customer_id : Nat
  name : String
  role : Option String
  phone : Option String
  email : Option String
deriving DecidableEq

structure Meeting where
  id : Nat
  customer_id : Nat
  meeting_date : DateD
  title_hint : Option String
  raw_notes : Option String
  created_by : Option Nat
deriving DecidableEq

structure MeetingAsset where
  id : Nat
  meeting_id : Nat
  kind : String
  file_url : String
  file_name : String
deriving DecidableEq

structure MeetingSummary where
  id : Nat
  meeting_id : Nat
  version : Nat
  language : String
  summary_md : String
  model : String
  prompt_template_version : String
deriving DecidableEq

structure EmailDraft where
  id : Nat
  meeting_id : Nat
  version : Nat
  subject : String
  body_html : String
  to_emails : List String
  cc_emails : List String
  language : String
deriving DecidableEq

/-- The relational store: one list per table, in insertion order (the
order rows come back from an unordered query), plus the id allocator. -/
structure DB where
  customers : List Customer
  contacts : List Contact
  meetings : List Meeting
  assets : List MeetingAsset
  summaries : List MeetingSummary
  email_drafts : List EmailDraft
  next_id : Nat
deriving DecidableEq

/-- `Meeting.title` property of models.py:
`hint = self._title_hint.strip() if self._title_hint and self._title_hint.strip() else 'Meeting'`,
then `f"{date_str} – {hint}"`. -/
def meetingTitle (m : Meeting) : String :=
  let date_str := formatDate m.meeting_date
  let hint :=
    match m.title_hint with
    | none => "Meeting"
    | some h =>
      if h = "" then "Meeting"
      else if pyStrip h = "" then "Meeting"
      else pyStrip h
  date_str ++ " – " ++ hint

/-! ## Content generator (src/backend/ai_service.py) -/

/-- The `{subject, body}` pair returned by `generate_email_draft`. -/
structure EmailContent where
  subject : String
  body : String
deriving DecidableEq

/-- `generate_meeting_summary(meeting, language)`: a fixed markdown
template, Hebrew when `language == "he"`, otherwise the English template;
the f-string result is `.strip()`-ed. -/
def generate_meeting_summary (m : Meeting) (language : String) : String :=
  if language = "he" then
    pyStrip ("\n# סיכום פגישה - " ++ (meetingTitle m ++
      ("\n\n## סדר יום\n- דיון בנושאים עיקריים\n- החלטות שהתקבלו\n\n## החלטות מרכזיות\n" ++
      (pyOrStr m.raw_notes "אין הערות זמינות" ++
      "\n\n## פעולות נדרשות\n- [ ] מעקב אחר החלטות\n- [ ] תיאום פגישה הבאה\n\n## צעדים הבאים\n- המשך תיאום\n- דיווח לצוות\n\n## השפעה על ARR\nלא צוין\n"))))
  else
    pyStrip ("\n# Meeting Summary - " ++ (meetingTitle m ++
      ("\n\n## Agenda\n- Discussion of key topics\n- Decisions made\n\n## Key Decisions\n" ++
      (pyOrStr m.raw_notes "No notes available" ++
      "\n\n## Action Items\n- [ ] Follow up on decisions\n- [ ] Schedule next meeting\n\n## Next Steps\n- Continue coordination\n- Report to team\n\n## ARR Impact\nNot specified\n"))))

/-- `generate_email_draft(meeting, language)`: subject and HTML body;
`customer` models the `meeting.customer` relationship
(`meeting.customer.name if meeting.customer else "Customer"`); only the
body is `.strip()`-ed. -/
def generate_email_draft (m : Meeting) (customer : Option Customer)
    (language : String) : EmailContent :=
  let customer_name := (customer.map Customer.name).getD "Customer"
  let meeting_date := formatDate m.meeting_date
  if language = "he" then
    { subject := customer_name ++ " – " ++ meeting_date ++ " – סיכום פגישה וצעדים הבאים"
      body := pyStrip ("\n<div dir=\"rtl\">\n<p>שלום,</p>\n\n<p>אני שולח/ת סיכום הפגישה שלנו מהיום (" ++
        (meeting_date ++ (") עם " ++ (customer_name ++
        (".</p>\n\n<h3>נושאים עיקריים שנדונו:</h3>\n<ul>\n<li>" ++
        (pyOrStr m.raw_notes "לא צוינו פרטים" ++
        "</li>\n</ul>\n\n<h3>פעולות נדרשות:</h3>\n<ul>\n<li>מעקב אחר החלטות שהתקבלו</li>\n<li>תיאום הפגישה הבאה</li>\n</ul>\n\n<p>אשמח לשמוע הערות או שאלות.</p>\n\n<p>תודה,<br>\n[השם שלך]</p>\n</div>\n")))))) }
  else
    { subject := customer_name ++ " – " ++ meeting_date ++ " – Meeting Summary & Next Steps"
      body := pyStrip ("\n<p>Hello,</p>\n\n<p>I\x27m sending a summary of our meeting today (" ++
        (meeting_date ++ (") with " ++ (customer_name ++
        (".</p>\n\n<h3>Key Topics Discussed:</h3>\n<ul>\n<li>" ++
        (pyOrStr m.raw_notes "No details provided" ++
        "</li>\n</ul>\n\n<h3>Action Items:</h3>\n<ul>\n<li>Follow up on decisions made</li>\n<li>Schedule next meeting</li>\n</ul>\n\n<p>Please let me know if you have any questions or feedback.</p>\n\n<p>Best regards,<br>\n[Your Name]</p>\n")))))) }

/-! ## Request schemas (src/backend/schemas.py) -/

structure CustomerCreate where
  name : String
  logo_url : Option String := none
  arr_usd : Option Int := some 0
  notes : Option String := none
deriving DecidableEq

/-- `CustomerUpdate` with pydantic `exclude_unset` information: an outer
`none` means the field was not present in the request; `some v` means the
field was explicitly set to `v`. -/
structure CustomerUpdate where
  name : Option String := none
  logo_url : Option (Option String) := none
  arr_usd : Option (Option Int) := none
  notes : Option (Option String) := none
deriving DecidableEq

structure ContactCreate where
  name : String
  role : Option String := none
  phone : Option String := none
  email : Option String := none
deriving DecidableEq

structure MeetingCreate where
  meeting_date : DateD
  title_hint : Option String := none
  raw_notes : Option String := none
deriving DecidableEq

/-- Error taxonomy: `HTTPException(status_code=404, detail=...)`. -/
inductive ApiError where
  | notFound (detail : String)
deriving DecidableEq

/-! ## API handlers (src/backend/main.py)

Every handler that raises a 404 does so before touching the store, so an
erroneous call returns `.error` and produces no new state; a successful
call returns the created/updated entity together with the post-commit
database state. -/

/-- `GET /customers`: optional case-insensitive `ILIKE '%search%'` filter
(skipped for `None` or the empty string, both falsy under `if search:`),
then `offset`/`limit`. -/
def get_customers (db : DB) (search : Option String) (limit offset : Nat) :
    List Customer :=
  let filtered :=
    match search with
    | none => db.customers
    | some s =>
      if s = "" then db.customers
      else db.customers.filter (fun c => sqlIlike ("%" ++ s ++ "%") c.name)
  (filtered.drop offset).take limit

/-- `POST /customers`. -/
def create_customer (db : DB) (req : CustomerCreate) (uid : Nat) :
    Customer × DB :=
  let c : Customer :=
    { id := db.next_id, name := req.name, logo_url := req.logo_url,
      arr_usd := req.arr_usd, notes := req.notes, created_by := some uid }
  (c, { db with customers := db.customers ++ [c], next_id := db.next_id + 1 })

/-- `GET /customers/{customer_id}`. -/
def get_customer (db : DB) (cid : Nat) : Except ApiError Customer :=
  match db.customers.find? (fun c => c.id == cid) with
  | none => .error (.notFound "Customer not found")
  | some c => .ok c

/-- Field-by-field application of
`for field, value in customer_update.dict(exclude_unset=True).items(): setattr(customer, field, value)`:
only the fields present in the request are overwritten. -/
def applyCustomerUpdate (c : Customer) (u : CustomerUpdate) : Customer :=
  { c with
    name := u.name.getD c.name
    logo_url := u.logo_url.getD c.logo_url
    arr_usd := u.arr_usd.getD c.arr_usd
    notes := u.notes.getD c.notes }

/-- `PUT /customers/{customer_id}`. -/
def update_customer (db : DB) (cid : Nat) (u : CustomerUpdate) :
    Except ApiError (Customer × DB) :=
  match db.customers.find? (fun c => c.id == cid) with
  | none => .error (.notFound "Customer not found")
  | some c =>
    let c2 := applyCustomerUpdate c u
    .ok (c2,
      { db with
        customers := db.customers.map (fun x => if x.id == cid then c2 else x) })

/-- `DELETE /customers/{customer_id}`: `db.delete(customer)` with the
cascades declared in models.py (`customer → contacts/meetings`,
`meeting → assets/summaries/email_drafts`, all `all, delete-orphan` /
`ondelete="CASCADE"`). -/
def delete_customer (db : DB) (cid : Nat) : Except ApiError DB :=
  match db.customers.find? (fun c => c.id == cid) with
  | none => .error (.notFound "Customer not found")
  | some _ =>
    let deleted := db.meetings.filter (fun m => m.customer_id == cid)
    .ok
      { db with
        customers := db.customers.filter (fun c => !(c.id == cid)),
        contacts := db.contacts.filter (fun ct => !(ct.customer_id == cid)),
        meetings := db.meetings.filter (fun m => !(m.customer_id == cid)),
        assets := db.assets.filter
          (fun a => !(deleted.any (fun m => m.id == a.meeting_id))),
        summaries := db.summaries.filter
          (fun s => !(deleted.any (fun m => m.id == s.meeting_id))),
        email_drafts := db.email_drafts.filter
          (fun e => !(deleted.any (fun m => m.id == e.meeting_id))) }

/-- `POST /customers/{customer_id}/contacts`. -/
def create_contact (db : DB) (cid : Nat) (req : ContactCreate) :
    Except ApiError (Contact × DB) :=
  match db.customers.find? (fun c => c.id == cid) with
  | none => .error (.notFound "Customer not found")
  | some _ =>
    let ct : Contact :=
      { id := db.next_id, customer_id := cid, name := req.name,
        role := req.role, phone := req.phone, email := req.email }
    .ok (ct, { db with contacts := db.contacts ++ [ct], next_id := db.next_id + 1 })

/-- `POST /customers/{customer_id}/meetings`. -/
def create_meeting (db : DB) (cid : Nat) (req : MeetingCreate) (uid : Nat) :
    Except ApiError (Meeting × DB) :=
  match db.customers.find? (fun c => c.id == cid) with
  | none => .error (.notFound "Customer not found")
  | some _ =>
    let m : Meeting :=
      { id := db.next_id, customer_id := cid, meeting_date := req.meeting_date,
        title_hint := req.title_hint, raw_notes := req.raw_notes,
        created_by := some uid }
    .ok (m, { db with meetings := db.meetings ++ [m], next_id := db.next_id + 1 })

/-- `GET /meetings/{meeting_id}`. -/
def get_meeting (db : DB) (mid : Nat) : Except ApiError Meeting :=
  match db.meetings.find? (fun m => m.id == mid) with
  | none => .error (.notFound "Meeting not found")
  | some m => .ok m

/-- `POST /meetings/{meeting_id}/assets`: classify by content-type and
record the path `data/assets/{meeting_id}/{filename}`. -/
def upload_meeting_asset (db : DB) (mid : Nat)
    (filename content_type : String) : Except ApiError (MeetingAsset × DB) :=
  match db.meetings.find? (fun m => m.id == mid) with
  | none => .error (.notFound "Meeting not found")
  | some _ =>
    let a : MeetingAsset :=
      { id := db.next_id, meeting_id := mid,
        kind := if strStartsWith content_type "image/" then "image" else "file",
        file_url := "data/assets/" ++ toString mid ++ "/" ++ filename,
        file_name := filename }
    .ok (a, { db with assets := db.assets ++ [a], next_id := db.next_id + 1 })

/-- Versions of the already-stored summaries of a meeting. -/
def summaryVersions (db : DB) (mid : Nat) : List Nat :=
  (db.summaries.filter (fun s => s.meeting_id == mid)).map MeetingSummary.version

/-- Maximum existing summary version for a meeting, 0 when none exists; the
source obtains it by ordering the meeting's summaries by version descending
and taking the first row. -/
def maxSummaryVersion (db : DB) (mid : Nat) : Nat :=
  (summaryVersions db mid).foldl max 0

/-- Versions of the already-stored email drafts of a meeting. -/
def draftVersions (db : DB) (mid : Nat) : List Nat :=
  (db.email_drafts.filter (fun e => e.meeting_id == mid)).map EmailDraft.version

/-- Maximum existing draft version for a meeting, 0 when none exists. -/
def maxDraftVersion (db : DB) (mid : Nat) : Nat :=
  (draftVersions db mid).foldl max 0

/-- `POST /meetings/{meeting_id}/ai/summarize`:
`next_version = (latest_summary.version + 1) if latest_summary else 1`. -/
def create_ai_summary (db : DB) (mid : Nat) (language : String) :
    Except ApiError (MeetingSummary × DB) :=
  match db.meetings.find? (fun m => m.id == mid) with
  | none => .error (.notFound "Meeting not found")
  | some m =>
    let next_version := maxSummaryVersion db mid + 1
    let s : MeetingSummary :=
      { id := db.next_id, meeting_id := mid, version := next_version,
        language := language,
        summary_md := generate_meeting_summary m language,
        model := "gpt-4", prompt_template_version := "v1.0" }
    .ok (s, { db with summaries := db.summaries ++ [s], next_id := db.next_id + 1 })

/-- `POST /meetings/{meeting_id}/ai/draft-email`: same versioning pattern;
recipients come from the customer's contacts with a non-null email, first
two as TO, the rest as CC. -/
def create_email_draft (db : DB) (mid : Nat) (language : String) :
    Except ApiError (EmailDraft × DB) :=
  match db.meetings.find? (fun m => m.id == mid) with
  | none => .error (.notFound "Meeting not found")
  | some m =>
    let next_version := maxDraftVersion db mid + 1
    let content := generate_email_draft m
      (db.customers.find? (fun c => c.id == m.customer_id)) language
    let contacts := db.contacts.filter
      (fun ct => ct.customer_id == m.customer_id && ct.email.isSome)
    let to_emails := (contacts.take 2).filterMap Contact.email
    let cc_emails := (contacts.drop 2).filterMap Contact.email
    let d : EmailDraft :=
      { id := db.next_id, meeting_id := mid, version := next_version,
        subject := content.subject, body_html := content.body,
        to_emails := to_emails, cc_emails := cc_emails, language := language }
    .ok (d, { db with email_drafts := db.email_drafts ++ [d], next_id := db.next_id + 1 })

/-- The summary row `create_ai_summary` persists on success (abbreviation
of the corresponding record built in the handler). -/
def newSummary (db : DB) (mid : Nat) (m : Meeting) (lang : String) :
    MeetingSummary :=
  { id := db.next_id, meeting_id := mid,
    version := maxSummaryVersion db mid + 1, language := lang,
    summary_md := generate_meeting_summary m lang, model := "gpt-4",
    prompt_template_version := "v1.0" }

/-- The store state after a successful `create_ai_summary`. -/
def afterSummary (db : DB) (mid : Nat) (m : Meeting) (lang : String) : DB :=
  { db with
    summaries := db.summaries ++ [newSummary db mid m lang],
    next_id := db.next_id + 1 }

/-! ## Eligible e-mail recipients of a meeting's customer

The contacts of the meeting's customer carrying a non-null email, in query
(insertion) order, with their email addresses extracted. -/

def eligibleEmails (db : DB) (m : Meeting) : List String :=
  (db.contacts.filter
    (fun ct => ct.customer_id == m.customer_id && ct.email.isSome)).filterMap
    Contact.email

/-! ## Concrete fixtures used by the witness theorems -/

def custW : Customer :=
  { id := 1, name := "Acme", logo_url := none, arr_usd := some 12500,
    notes := some "vip", created_by := some 7 }

def ctW1 : Contact :=
  { id := 3, customer_id := 1, name := "Ann", role := none, phone := none,
    email := some "ann@acme.test" }

def ctW2 : Contact :=
  { id := 4, customer_id := 1, name := "Bob", role := none, phone := none,
    email := some "bob@acme.test" }

def ctW3 : Contact :=
  { id := 5, customer_id := 1, name := "Cyd", role := none, phone := none,
    email := some "cyd@acme.test" }

def mtgW : Meeting :=
  { id := 2, customer_id := 1, meeting_date := ⟨2024, 1, 15⟩,
    title_hint := some "Kickoff", raw_notes := some "agreed on rollout",
    created_by := some 7 }

/-- A populated store with no summaries or drafts yet. -/
def dbW : DB :=
  { customers := [custW], contacts := [ctW1, ctW2, ctW3], meetings := [mtgW],
    assets := [], summaries := [], email_drafts := [], next_id := 10 }

/-- The empty store. -/
def db0 : DB :=
  { customers := [], contacts := [], meetings := [], assets := [],
    summaries := [], email_drafts := [], next_id := 1 }

def assetDel : MeetingAsset :=
  { id := 6, meeting_id := 2, kind := "image",
    file_url := "data/assets/2/logo.png", file_name := "logo.png" }

def sumDel : MeetingSummary :=
  { id := 7, meeting_id := 2, version := 1, language := "en",
    summary_md := "s", model := "gpt-4", prompt_template_version := "v1.0" }

def draftDel : EmailDraft :=
  { id := 8, meeting_id := 2, version := 1, subject := "s", body_html := "b",
    to_emails := [], cc_emails := [], language := "en" }

/-- A store with nested children, for exercising the cascade delete. -/
def dbDel : DB :=
  { customers := [custW], contacts := [ctW1], meetings := [mtgW],
    assets := [assetDel], summaries := [sumDel], email_drafts := [draftDel],
    next_id := 10 }

/-- The state `delete_customer dbDel 1` leaves behind. -/
def dbDelAfter : DB :=
  { customers := [], contacts := [], meetings := [], assets := [],
    summaries := [], email_drafts := [], next_id := 10 }

def custC5 : Customer :=
  { id := 1, name := "Acme", logo_url := none, arr_usd := some 0,
    notes := some "keep", created_by := none }

def dbC5 : DB :=
  { customers := [custC5], contacts := [], meetings := [], assets := [],
    summaries := [], email_drafts := [], next_id := 2 }

/-- An update request that provides only `name`; the other fields are
unset. -/
def uC5 : CustomerUpdate := { name := some "NewName" }

def reqW9 : CustomerCreate :=
  { name := "Globex", logo_url := some "http://logo", arr_usd := some 990,
    notes := some "new" }

/-! ## Helper lemmas -/

theorem dropWhile_append_of_eq_nil {p : Char → Bool} {l1 l2 : List Char}
    (h : l1.dropWhile p = []) :
    (l1 ++ l2).dropWhile p = l2.dropWhile p := by
  simp [List.dropWhile_append, h]

theorem dropWhile_append_of_ne_nil {p : Char → Bool} {l1 l2 : List Char}
    (h : l1.dropWhile p ≠ []) :
    (l1 ++ l2).dropWhile p = l1.dropWhile p ++ l2 := by
  rw [List.dropWhile_append, if_neg]
  simpa [List.isEmpty_iff] using h

/-- After stripping, a segment of the text that begins right after the
leading newline and both starts and ends with a non-whitespace character
survives as the initial segment of the result. -/
theorem take_pyStripList (hd la : Char) (mid t : List Char)
    (hh : hd.isWhitespace = false) (hl : la.isWhitespace = false) :
    (pyStripList ('\n' :: ((hd :: mid ++ [la]) ++ t))).take (mid.length + 2) =
      hd :: mid ++ [la] := by
  have hlen : (hd :: mid ++ [la]).length = mid.length + 2 := by
    simp +arith
  rw [pyStripList]
  rw [List.dropWhile_cons_of_pos (by decide)]
  rw [show (hd :: mid ++ [la]) ++ t = hd :: (mid ++ [la] ++ t) by simp]
  rw [List.dropWhile_cons_of_neg (by simp [hh])]
  rw [show hd :: (mid ++ [la] ++ t) = (hd :: mid ++ [la]) ++ t by simp]
  rw [List.reverse_append]
  by_cases hc : t.reverse.dropWhile Char.isWhitespace = []
  · rw [dropWhile_append_of_eq_nil hc]
    rw [show (hd :: mid ++ [la]).reverse = la :: (mid.reverse ++ [hd]) by simp]
    rw [List.dropWhile_cons_of_neg (by simp [hl])]
    rw [show la :: (mid.reverse ++ [hd]) = (hd :: mid ++ [la]).reverse by simp]
    rw [List.reverse_reverse, ← hlen, List.take_length]
  · rw [dropWhile_append_of_ne_nil hc, List.reverse_append,
      List.reverse_reverse]
    exact List.take_left' hlen

/-- The seed of a `foldl max` is a lower bound of the result. -/
theorem le_foldl_max (l : List Nat) (a : Nat) : a ≤ l.foldl max a := by
  induction l generalizing a with
  | nil => exact Nat.le_refl a
  | cons b l ih =>
    exact Nat.le_trans (Nat.le_max_left a b) (ih (max a b))

/-- Every member of the list is bounded by its `foldl max`. -/
theorem mem_le_foldl_max {l : List Nat} {x : Nat} (h : x ∈ l) (a : Nat) :
    x ≤ l.foldl max a := by
  induction l generalizing a with
  | nil => cases h
  | cons b l ih =>
    rcases List.mem_cons.mp h with rfl | hx
    · exact Nat.le_trans (Nat.le_max_right a x) (le_foldl_max l (max a x))
    · exact ih hx (max a b)

/-- `filterMap` commutes with `take` when `f` succeeds on every element. -/
theorem filterMap_take_comm {α β : Type} (f : α → Option β) (l : List α)
    (h : ∀ x ∈ l, (f x).isSome) (n : Nat) :
    (l.take n).filterMap f = (l.filterMap f).take n := by
  induction l generalizing n with
  | nil => simp
  | cons a l ih =>
    obtain ⟨b, hb⟩ := Option.isSome_iff_exists.mp (h a (List.mem_cons_self a l))
    cases n with
    | zero => simp
    | succ n =>
      rw [List.take_succ_cons, List.filterMap_cons, List.filterMap_cons, hb,
        List.take_succ_cons, ih (fun x hx => h x (List.mem_cons_of_mem a hx)) n]

/-- `filterMap` commutes with `drop` when `f` succeeds on every element. -/
theorem filterMap_drop_comm {α β : Type} (f : α → Option β) (l : List α)
    (h : ∀ x ∈ l, (f x).isSome) (n : Nat) :
    (l.drop n).filterMap f = (l.filterMap f).drop n := by
  induction l generalizing n with
  | nil => simp
  | cons a l ih =>
    obtain ⟨b, hb⟩ := Option.isSome_iff_exists.mp (h a (List.mem_cons_self a l))
    cases n with
    | zero => simp
    | succ n =>
      rw [List.drop_succ_cons, List.filterMap_cons, hb, List.drop_succ_cons,
        ih (fun x hx => h x (List.mem_cons_of_mem a hx)) n]

/-- `suffixAny` accepts exactly the strings with an accepted suffix. -/
theorem suffixAny_iff (f : List Char → Bool) (s : List Char) :
    suffixAny f s = true ↔ ∃ s1 s2, s = s1 ++ s2 ∧ f s2 = true := by
  induction s with
  | nil =>
    constructor
    · intro h; exact ⟨[], [], rfl, h⟩
    · rintro ⟨s1, s2, heq, h⟩
      obtain ⟨rfl, rfl⟩ := List.append_eq_nil.mp heq.symm
      exact h
  | cons c s ih =>
    rw [show suffixAny f (c :: s) = (f (c :: s) || suffixAny f s) from rfl,
      Bool.or_eq_true]
    constructor
    · rintro (h | h)
      · exact ⟨[], c :: s, rfl, h⟩
      · obtain ⟨s1, s2, rfl, h2⟩ := ih.mp h
        exact ⟨c :: s1, s2, rfl, h2⟩
    · rintro ⟨s1, s2, heq, h2⟩
      cases s1 with
      | nil => exact Or.inl (heq ▸ h2)
      | cons a s1 =>
        obtain ⟨rfl, rfl⟩ : c = a ∧ s = s1 ++ s2 := by
          simpa using heq
        exact Or.inr (ih.mpr ⟨s1, s2, rfl, h2⟩)

theorem likeMatch_pct (p s : List Char) :
    likeMatch ('%' :: p) s = suffixAny (likeMatch p) s := by
  conv_lhs => unfold likeMatch
  simp

theorem likeMatch_lit_nil (a : Char) (p : List Char) (ha : ¬ isWild a) :
    likeMatch (a :: p) [] = false := by
  conv_lhs => unfold likeMatch
  simp only [isWild, not_or] at ha
  simp [ha.1, ha.2.1, ha.2.2]

theorem likeMatch_lit_cons (a : Char) (p : List Char) (d : Char)
    (s : List Char) (ha : ¬ isWild a) :
    likeMatch (a :: p) (d :: s) = (decide (a = d) && likeMatch p s) := by
  conv_lhs => unfold likeMatch
  simp only [isWild, not_or] at ha
  simp [ha.1, ha.2.1, ha.2.2]

/-- A pattern beginning with `%` matches exactly the strings with a suffix
matched by the rest of the pattern. -/
theorem likeMatch_pct_iff (p s : List Char) :
    likeMatch ('%' :: p) s = true ↔
      ∃ s1 s2, s = s1 ++ s2 ∧ likeMatch p s2 = true := by
  rw [likeMatch_pct, suffixAny_iff]

/-- The pattern `['%']` matches everything. -/
theorem likeMatch_single_pct (s : List Char) : likeMatch ['%'] s = true := by
  rw [likeMatch_pct_iff]
  exact ⟨s, [], by simp, rfl⟩

/-- A wildcard-free pattern followed by `%` matches exactly the strings
that start with that pattern. -/
theorem likeMatch_lit_pct_iff (p : List Char) (hp : ∀ c ∈ p, ¬ isWild c)
    (s : List Char) :
    likeMatch (p ++ ['%']) s = true ↔ ∃ t, s = p ++ t := by
  induction p generalizing s with
  | nil => simpa using likeMatch_single_pct s
  | cons a p ih =>
    have ha : ¬ isWild a := hp a (List.mem_cons_self a p)
    have hp2 : ∀ c ∈ p, ¬ isWild c := fun c hc => hp c (List.mem_cons_of_mem a hc)
    cases s with
    | nil =>
      rw [List.cons_append, likeMatch_lit_nil a _ ha]
      simp
    | cons d s =>
      rw [List.cons_append, likeMatch_lit_cons a _ d s ha, Bool.and_eq_true,
        decide_eq_true_iff]
      constructor
      · rintro ⟨rfl, h⟩
        obtain ⟨t, rfl⟩ := (ih hp2 s).mp h
        exact ⟨t, rfl⟩
      · rintro ⟨t, heq⟩
        obtain ⟨rfl, rfl⟩ : d = a ∧ s = p ++ t := by simpa using heq
        exact ⟨rfl, (ih hp2 (p ++ t)).mpr ⟨t, rfl⟩⟩

theorem startsWithL_iff (p l : List Char) :
    startsWithL p l = true ↔ ∃ t, l = p ++ t := by
  induction p generalizing l with
  | nil => simp [startsWithL]
  | cons a p ih =>
    cases l with
    | nil => simp [startsWithL]
    | cons b l =>
      rw [startsWithL, Bool.and_eq_true, decide_eq_true_iff, ih]
      constructor
      · rintro ⟨rfl, t, rfl⟩; exact ⟨t, rfl⟩
      · rintro ⟨t, heq⟩
        obtain ⟨rfl, rfl⟩ : b = a ∧ l = p ++ t := by simpa using heq
        exact ⟨rfl, t, rfl⟩

theorem containsL_iff (n h : List Char) :
    containsL n h = true ↔ ∃ pre suf, h = pre ++ n ++ suf := by
  induction h with
  | nil =>
    rw [containsL, startsWithL_iff]
    constructor
    · rintro ⟨t, ht⟩
      obtain ⟨rfl, rfl⟩ := List.append_eq_nil.mp ht.symm
      exact ⟨[], [], rfl⟩
    · rintro ⟨pre, suf, hps⟩
      obtain ⟨h1, rfl⟩ := List.append_eq_nil.mp hps.symm
      obtain ⟨rfl, rfl⟩ := List.append_eq_nil.mp h1
      exact ⟨[], rfl⟩
  | cons c hs ih =>
    rw [containsL, Bool.or_eq_true, startsWithL_iff, ih]
    constructor
    · rintro (⟨t, ht⟩ | ⟨pre, suf, hps⟩)
      · exact ⟨[], t, by simpa using ht⟩
      · exact ⟨c :: pre, suf, by simp [hps]⟩
    · rintro ⟨pre, suf, hps⟩
      cases pre with
      | nil => exact Or.inl ⟨suf, by simpa using hps⟩
      | cons a pre =>
        obtain ⟨rfl, h2⟩ : c = a ∧ hs = pre ++ n ++ suf := by
          simpa using hps
        exact Or.inr ⟨pre, suf, h2⟩

/-- For a wildcard-free needle `p`, the pattern `%p%` matches `h` exactly
when `p` occurs in `h` as a contiguous substring. -/
theorem likeMatch_wrap_eq_containsL (p h : List Char)
    (hp : ∀ c ∈ p, ¬ isWild c) :
    likeMatch ('%' :: (p ++ ['%'])) h = containsL p h := by
  rw [← Bool.coe_iff_coe, likeMatch_pct_iff, containsL_iff]
  constructor
  · rintro ⟨s1, s2, rfl, hm⟩
    obtain ⟨t, rfl⟩ := (likeMatch_lit_pct_iff p hp s2).mp hm
    exact ⟨s1, t, by simp⟩
  · rintro ⟨pre, suf, rfl⟩
    exact ⟨pre, p ++ suf, by simp,
      (likeMatch_lit_pct_iff p hp (p ++ suf)).mpr ⟨suf, rfl⟩⟩

/-- Lower-casing never produces a `LIKE` metacharacter from a
non-metacharacter. -/
theorem lowerChar_wild {c : Char} (h : isWild (lowerChar c)) : isWild c := by
  unfold lowerChar at h
  split at h
  all_goals first
    | exact h
    | (exfalso; rcases h with h | h | h <;> exact absurd h (by decide))

/-- For a wildcard-free search term, `ILIKE '%term%'` is exactly the
case-insensitive substring test. -/
theorem sqlIlike_wrap_eq_containsCI (s name : String)
    (hw : ∀ c ∈ s.data, ¬ isWild c) :
    sqlIlike ("%" ++ s ++ "%") name = containsCI s name := by
  have hp : ∀ c ∈ s.data.map lowerChar, ¬ isWild c := by
    intro c hc
    obtain ⟨c0, hc0, rfl⟩ := List.mem_map.mp hc
    exact fun h => hw c0 hc0 (lowerChar_wild h)
  have h1 : (lowerStr ("%" ++ s ++ "%")).data
      = ('%' :: (s.data ++ ['%'])).map lowerChar := rfl
  rw [sqlIlike, h1, List.map_cons, List.map_append]
  rw [show lowerChar '%' = '%' from rfl]
  rw [show ['%'].map lowerChar = ['%'] from rfl]
  rw [likeMatch_wrap_eq_containsL _ _ hp]
  rfl

/-! ## Claim theorems -/

/-- Claim C8 (amended): for a non-empty search term containing none of the
`LIKE` metacharacters `%`, `_`, `\`, `GET /customers?search=s` returns
exactly the window (after `offset`, at most `limit`) of the customers whose
name contains the term as a substring, compared case-insensitively. -/
theorem c8_search_ci_substring (db : DB) (s : String) (lim off : Nat)
    (hs : s ≠ "") (hw : ∀ c ∈ s.data, ¬ isWild c) :
    get_customers db (some s) lim off =
      ((db.customers.filter (fun c => containsCI s c.name)).drop off).take lim := by
  have hstep : get_customers db (some s) lim off =
      (((if s = "" then db.customers
         else db.customers.filter
           (fun c => sqlIlike ("%" ++ s ++ "%") c.name)).drop off).take lim) := rfl
  have hf : db.customers.filter (fun c => sqlIlike ("%" ++ s ++ "%") c.name)
      = db.customers.filter (fun c => containsCI s c.name) :=
    List.filter_congr (fun c _ => sqlIlike_wrap_eq_containsCI s c.name hw)
  rw [hstep, if_neg hs, hf]

/-- Claim C8 counterexample: with the single stored customer "Acme", the
search term `"%"` returns that customer even though its name does not
contain `%` as a substring — the term's characters act as `LIKE`
wildcards, not as literal substring characters. -/
theorem c8_counterexample :
    get_customers dbW (some "%") 50 0 = [custW] ∧
      containsCI "%" custW.name = false := by
  constructor
  · rfl
  · rfl

/-- Claim C8 witness: the amended theorem applied to the concrete store
`dbW` and the wildcard-free term `"cme"`. -/
theorem c8_witness :
    get_customers dbW (some "cme") 50 0 =
      ((dbW.customers.filter (fun c => containsCI "cme" c.name)).drop 0).take 50 :=
  c8_search_ci_substring dbW "cme" 50 0 (by decide) (by decide)

/-- Claim C3: for a meeting dated 2024-01-15, the derived title is
`"2024-01-15 – Meeting"` when the title hint is absent or strips to
nothing, `"2024-01-15 – Kickoff"` when the hint is `"Kickoff"`, and in
general the ISO date, `" – "`, and the stripped hint. -/
theorem c3_meeting_title (m : Meeting) (hd : m.meeting_date = ⟨2024, 1, 15⟩) :
    (m.title_hint = none → meetingTitle m = "2024-01-15 – Meeting") ∧
    (∀ h, m.title_hint = some h → pyStrip h = "" →
      meetingTitle m = "2024-01-15 – Meeting") ∧
    (m.title_hint = some "Kickoff" →
      meetingTitle m = "2024-01-15 – Kickoff") ∧
    (∀ h, m.title_hint = some h → pyStrip h ≠ "" →
      meetingTitle m = "2024-01-15 – " ++ pyStrip h) := by
  have hunfold : meetingTitle m =
      formatDate m.meeting_date ++ " – "
        ++ (match m.title_hint with
            | none => "Meeting"
            | some h0 =>
              if h0 = "" then "Meeting"
              else if pyStrip h0 = "" then "Meeting"
              else pyStrip h0) := rfl
  refine ⟨?_, ?_, ?_, ?_⟩
  · intro h1
    rw [hunfold, h1, hd]
    rfl
  · intro h hh hstrip
    rw [hunfold, hh, hd]
    rcases eq_or_ne h "" with rfl | hE
    · rfl
    · show formatDate ⟨2024, 1, 15⟩ ++ " – "
          ++ (if h = "" then "Meeting"
              else if pyStrip h = "" then "Meeting" else pyStrip h) = _
      rw [if_neg hE, if_pos hstrip]
      rfl
  · intro hh
    rw [hunfold, hh, hd]
    rfl
  · intro h hh hstrip
    rw [hunfold, hh, hd]
    have hE : h ≠ "" := by
      intro hcon
      exact hstrip (by rw [hcon]; rfl)
    show formatDate ⟨2024, 1, 15⟩ ++ " – "
        ++ (if h = "" then "Meeting"
            else if pyStrip h = "" then "Meeting" else pyStrip h) = _
    rw [if_neg hE, if_neg hstrip]
    rfl

/-- Claim C3 witness: the concrete meeting `mtgW` (date 2024-01-15, hint
"Kickoff"). -/
theorem c3_witness : meetingTitle mtgW = "2024-01-15 – Kickoff" :=
  (c3_meeting_title mtgW rfl).2.2.1 rfl

/-- Claim C6: a request naming an absent customer or meeting fails with a
404 Not Found, and no contact, meeting, asset, summary or draft is
persisted: the handler returns only the error, never a new store state. -/
theorem c6_absent_parent_404 (db : DB) (cid mid uid : Nat)
    (creq : ContactCreate) (mreq : MeetingCreate) (fn ct lang1 lang2 : String)
    (hc : db.customers.find? (fun c => c.id == cid) = none)
    (hm : db.meetings.find? (fun m => m.id == mid) = none) :
    create_contact db cid creq = .error (.notFound "Customer not found") ∧
    create_meeting db cid mreq uid = .error (.notFound "Customer not found") ∧
    upload_meeting_asset db mid fn ct = .error (.notFound "Meeting not found") ∧
    create_ai_summary db mid lang1 = .error (.notFound "Meeting not found") ∧
    create_email_draft db mid lang2 = .error (.notFound "Meeting not found") := by
  refine ⟨?_, ?_, ?_, ?_, ?_⟩
  · rw [create_contact, hc]
  · rw [create_meeting, hc]
  · rw [upload_meeting_asset, hm]
  · rw [create_ai_summary, hm]
  · rw [create_email_draft, hm]

/-- Claim C6 witness: the empty store rejects all five child-creating
requests with 404. -/
theorem c6_witness :
    create_contact db0 5 { name := "X" } =
      .error (.notFound "Customer not found") ∧
    create_meeting db0 5 { meeting_date := ⟨2024, 1, 1⟩ } 9 =
      .error (.notFound "Customer not found") ∧
    upload_meeting_asset db0 6 "f.png" "image/png" =
      .error (.notFound "Meeting not found") ∧
    create_ai_summary db0 6 "en" = .error (.notFound "Meeting not found") ∧
    create_email_draft db0 6 "en" = .error (.notFound "Meeting not found") :=
  c6_absent_parent_404 db0 5 6 9 { name := "X" }
    { meeting_date := ⟨2024, 1, 1⟩ } "f.png" "image/png" "en" "en" rfl rfl

/-- Claim C7: a stored asset has kind "image" exactly when the request
content-type starts with "image/", kind "file" otherwise, and its storage
path is `data/assets/{meeting_id}/{original_filename}`. -/
theorem c7_asset_classification (db : DB) (mid : Nat) (m : Meeting)
    (fn ct : String)
    (hm : db.meetings.find? (fun x => x.id == mid) = some m) :
    ∃ a db2, upload_meeting_asset db mid fn ct = .ok (a, db2) ∧
      (a.kind = "image" ↔ strStartsWith ct "image/" = true) ∧
      (a.kind = "file" ↔ strStartsWith ct "image/" = false) ∧
      a.file_url = "data/assets/" ++ toString mid ++ "/" ++ fn ∧
      a.file_name = fn ∧
      db2.assets = db.assets ++ [a] := by
  unfold upload_meeting_asset
  rw [hm]
  refine ⟨_, _, rfl, ?_, ?_, rfl, rfl, rfl⟩
  · show (if strStartsWith ct "image/" then "image" else "file") = "image"
        ↔ strStartsWith ct "image/" = true
    cases hctb : strStartsWith ct "image/" with
    | true => simp
    | false =>
      rw [if_neg (by simp)]
      exact ⟨fun h => absurd h (by decide), fun h => absurd h (by decide)⟩
  · show (if strStartsWith ct "image/" then "image" else "file") = "file"
        ↔ strStartsWith ct "image/" = false
    cases hctb : strStartsWith ct "image/" with
    | true =>
      rw [if_pos (by simp)]
      exact ⟨fun h => absurd h (by decide), fun h => absurd h (by decide)⟩
    | false => simp

/-- Claim C7 witness: uploading `logo.png` with content-type `image/png`
to the stored meeting. -/
theorem c7_witness :
    ∃ a db2, upload_meeting_asset dbW 2 "logo.png" "image/png" = .ok (a, db2) ∧
      (a.kind = "image" ↔ strStartsWith "image/png" "image/" = true) ∧
      (a.kind = "file" ↔ strStartsWith "image/png" "image/" = false) ∧
      a.file_url = "data/assets/" ++ toString 2 ++ "/" ++ "logo.png" ∧
      a.file_name = "logo.png" ∧
      db2.assets = dbW.assets ++ [a] :=
  c7_asset_classification dbW 2 mtgW "logo.png" "image/png" rfl

/-- Claim C5 counterexample: the update request `uC5` provides only
`name`; its `notes` field is unset (value `none` in the request record),
yet the stored customer keeps its old notes `some "keep"` — the handler
does not replace all mutable fields with the request record's values. -/
theorem c5_counterexample :
    uC5.notes = none ∧
    ∃ c2 db2, update_customer dbC5 1 uC5 = .ok (c2, db2) ∧
      c2.notes = some "keep" :=
  ⟨rfl, _, _, rfl, rfl⟩

/-- Claim C5 (amended): `PUT /customers/{id}` replaces exactly the fields
explicitly provided in the update request with their given values; fields
not provided keep their previous values (pydantic `exclude_unset=True`
partial update, not a full-record replacement). -/
theorem c5_update_provided_fields (db : DB) (cid : Nat) (u : CustomerUpdate)
    (c : Customer)
    (hc : db.customers.find? (fun x => x.id == cid) = some c) :
    ∃ c2 db2, update_customer db cid u = .ok (c2, db2) ∧
      (∀ v, u.name = some v → c2.name = v) ∧
      (u.name = none → c2.name = c.name) ∧
      (∀ v, u.logo_url = some v → c2.logo_url = v) ∧
      (u.logo_url = none → c2.logo_url = c.logo_url) ∧
      (∀ v, u.arr_usd = some v → c2.arr_usd = v) ∧
      (u.arr_usd = none → c2.arr_usd = c.arr_usd) ∧
      (∀ v, u.notes = some v → c2.notes = v) ∧
      (u.notes = none → c2.notes = c.notes) := by
  unfold update_customer
  rw [hc]
  refine ⟨_, _, rfl, ?_, ?_, ?_, ?_, ?_, ?_, ?_, ?_⟩ <;>
    first
      | (intro v hv; simp [applyCustomerUpdate, hv])
      | (intro hv; simp [applyCustomerUpdate, hv])

/-- Claim C5 witness: the amended theorem at the concrete store `dbC5`
with the partial update `uC5`. -/
theorem c5_witness :
    ∃ c2 db2, update_customer dbC5 1 uC5 = .ok (c2, db2) ∧
      (∀ v, uC5.name = some v → c2.name = v) ∧
      (uC5.name = none → c2.name = custC5.name) ∧
      (∀ v, uC5.logo_url = some v → c2.logo_url = v) ∧
      (uC5.logo_url = none → c2.logo_url = custC5.logo_url) ∧
      (∀ v, uC5.arr_usd = some v → c2.arr_usd = v) ∧
      (uC5.arr_usd = none → c2.arr_usd = custC5.arr_usd) ∧
      (∀ v, uC5.notes = some v → c2.notes = v) ∧
      (uC5.notes = none → c2.notes = custC5.notes) :=
  c5_update_provided_fields dbC5 1 uC5 custC5 rfl

/-- Claim C9: creating a customer and fetching it by the returned
identifier yields a record with the same name, ARR amount and notes as
the create request. -/
theorem c9_create_fetch_roundtrip (db : DB) (req : CustomerCreate) (uid : Nat)
    (hfresh : ∀ c ∈ db.customers, ¬ c.id = db.next_id) :
    get_customer (create_customer db req uid).2 (create_customer db req uid).1.id
        = .ok (create_customer db req uid).1 ∧
    (create_customer db req uid).1.name = req.name ∧
    (create_customer db req uid).1.arr_usd = req.arr_usd ∧
    (create_customer db req uid).1.notes = req.notes := by
  have hnone : db.customers.find? (fun c => c.id == db.next_id) = none :=
    List.find?_eq_none.mpr (fun x hx => by simpa using hfresh x hx)
  refine ⟨?_, rfl, rfl, rfl⟩
  have hfind : ((create_customer db req uid).2).customers.find?
      (fun c => c.id == (create_customer db req uid).1.id)
      = some (create_customer db req uid).1 := by
    show (db.customers ++ [(create_customer db req uid).1]).find?
        (fun c => c.id == db.next_id) = some (create_customer db req uid).1
    rw [List.find?_append, hnone, Option.none_or]
    exact List.find?_cons_of_pos _ (by show (db.next_id == db.next_id) = true; simp)
  unfold get_customer
  rw [hfind]

/-- Claim C9 witness: the round-trip on the concrete store `dbW` with the
request `reqW9`. -/
theorem c9_witness :
    get_customer (create_customer dbW reqW9 7).2 (create_customer dbW reqW9 7).1.id
        = .ok (create_customer dbW reqW9 7).1 ∧
    (create_customer dbW reqW9 7).1.name = reqW9.name ∧
    (create_customer dbW reqW9 7).1.arr_usd = reqW9.arr_usd ∧
    (create_customer dbW reqW9 7).1.notes = reqW9.notes :=
  c9_create_fetch_roundtrip dbW reqW9 7 (by decide)

/-- Claim C2: deleting a customer removes the customer, all its contacts
and meetings, and for each of its meetings every asset, summary and email
draft of that meeting; no dependent child record remains. -/
theorem c2_cascade_delete (db : DB) (cid : Nat) (db2 : DB)
    (h : delete_customer db cid = .ok db2) :
    (∀ c ∈ db2.customers, ¬ c.id = cid) ∧
    (∀ ct ∈ db2.contacts, ¬ ct.customer_id = cid) ∧
    (∀ m ∈ db2.meetings, ¬ m.customer_id = cid) ∧
    (∀ m ∈ db.meetings, m.customer_id = cid →
      (∀ a ∈ db2.assets, ¬ a.meeting_id = m.id) ∧
      (∀ s ∈ db2.summaries, ¬ s.meeting_id = m.id) ∧
      (∀ e ∈ db2.email_drafts, ¬ e.meeting_id = m.id)) := by
  unfold delete_customer at h
  cases hfind : db.customers.find? (fun c => c.id == cid) with
  | none =>
    rw [hfind] at h
    cases h
  | some c0 =>
    rw [hfind] at h
    injection h with h2
    subst h2
    refine ⟨?_, ?_, ?_, ?_⟩
    · intro c hc
      have hp := (List.mem_filter.mp hc).2
      simpa using hp
    · intro ct hct
      have hp := (List.mem_filter.mp hct).2
      simpa using hp
    · intro m hmem
      have hp := (List.mem_filter.mp hmem).2
      simpa using hp
    · intro m hm hmc
      have hdel : m ∈ db.meetings.filter (fun x => x.customer_id == cid) :=
        List.mem_filter.mpr ⟨hm, by simpa using hmc⟩
      refine ⟨?_, ?_, ?_⟩
      · intro a ha hame
        have hp := (List.mem_filter.mp ha).2
        rw [Bool.not_eq_true'] at hp
        exact (List.any_eq_false.mp hp) m hdel (by simp [hame])
      · intro s hs hsme
        have hp := (List.mem_filter.mp hs).2
        rw [Bool.not_eq_true'] at hp
        exact (List.any_eq_false.mp hp) m hdel (by simp [hsme])
      · intro e he heme
        have hp := (List.mem_filter.mp he).2
        rw [Bool.not_eq_true'] at hp
        exact (List.any_eq_false.mp hp) m hdel (by simp [heme])

/-- Claim C2 witness: deleting customer 1 from the populated store
`dbDel` leaves `dbDelAfter`, with no dependent record surviving. -/
theorem c2_witness :
    (∀ c ∈ dbDelAfter.customers, ¬ c.id = 1) ∧
    (∀ ct ∈ dbDelAfter.contacts, ¬ ct.customer_id = 1) ∧
    (∀ m ∈ dbDelAfter.meetings, ¬ m.customer_id = 1) ∧
    (∀ m ∈ dbDel.meetings, m.customer_id = 1 →
      (∀ a ∈ dbDelAfter.assets, ¬ a.meeting_id = m.id) ∧
      (∀ s ∈ dbDelAfter.summaries, ¬ s.meeting_id = m.id) ∧
      (∀ e ∈ dbDelAfter.email_drafts, ¬ e.meeting_id = m.id)) :=
  c2_cascade_delete dbDel 1 dbDelAfter rfl

/-- Claim C10: the persisted draft's TO list is the emails of the first
two contacts of the meeting's customer with a non-null email, in query
order, and the CC list the emails of all remaining such contacts; with at
most two such contacts CC is empty, with none both lists are empty. -/
theorem c10_draft_recipients (db : DB) (mid : Nat) (m : Meeting)
    (lang : String)
    (hm : db.meetings.find? (fun x => x.id == mid) = some m) :
    ∃ d db2, create_email_draft db mid lang = .ok (d, db2) ∧
      d.to_emails = (eligibleEmails db m).take 2 ∧
      d.cc_emails = (eligibleEmails db m).drop 2 ∧
      ((eligibleEmails db m).length ≤ 2 → d.cc_emails = []) ∧
      (eligibleEmails db m = [] → d.to_emails = [] ∧ d.cc_emails = []) := by
  unfold create_email_draft
  rw [hm]
  have hsome : ∀ ct ∈ db.contacts.filter
      (fun ct => ct.customer_id == m.customer_id && ct.email.isSome),
      (Contact.email ct).isSome = true := by
    intro ct hct
    have h2 := (List.mem_filter.mp hct).2
    simp only [Bool.and_eq_true] at h2
    exact h2.2
  have hto := filterMap_take_comm Contact.email _ hsome 2
  have hcc := filterMap_drop_comm Contact.email _ hsome 2
  refine ⟨_, _, rfl, hto, hcc, ?_, ?_⟩
  · intro hlen
    exact hcc.trans (List.drop_eq_nil_of_le hlen)
  · intro hnil
    constructor
    · exact hto.trans (by show (eligibleEmails db m).take 2 = []; rw [hnil]; simp)
    · exact hcc.trans (by show (eligibleEmails db m).drop 2 = []; rw [hnil]; simp)

/-- Claim C10 witness: drafting against the stored meeting whose customer
has three contacts with emails. -/
theorem c10_witness :
    ∃ d db2, create_email_draft dbW 2 "en" = .ok (d, db2) ∧
      d.to_emails = (eligibleEmails dbW mtgW).take 2 ∧
      d.cc_emails = (eligibleEmails dbW mtgW).drop 2 ∧
      ((eligibleEmails dbW mtgW).length ≤ 2 → d.cc_emails = []) ∧
      (eligibleEmails dbW mtgW = [] → d.to_emails = [] ∧ d.cc_emails = []) :=
  c10_draft_recipients dbW 2 mtgW "en" rfl

/-- On a stored meeting, `create_ai_summary` succeeds and returns exactly
the new row and the extended store. -/
theorem create_ai_summary_ok (db : DB) (mid : Nat) (m : Meeting)
    (lang : String)
    (hm : db.meetings.find? (fun x => x.id == mid) = some m) :
    create_ai_summary db mid lang =
      .ok (newSummary db mid m lang, afterSummary db mid m lang) := by
  unfold create_ai_summary
  rw [hm]
  rfl

/-- Claim C1: the summarize route assigns version `max existing + 1`
(hence 1 on a meeting without summaries), and two sequential calls
persist versions 1 then 2, each independently retrievable by id. -/
theorem c1_summarize_versioning (db : DB) (mid : Nat) (m : Meeting)
    (l1 l2 : String)
    (hm : db.meetings.find? (fun x => x.id == mid) = some m)
    (hfresh : ∀ s ∈ db.summaries, s.id < db.next_id) :
    (∀ s db1, create_ai_summary db mid l1 = .ok (s, db1) →
      s.version = maxSummaryVersion db mid + 1 ∧
      (∀ t ∈ db.summaries, t.meeting_id = mid → t.version < s.version) ∧
      db1.summaries.find? (fun x => x.id == s.id) = some s) ∧
    (db.summaries.filter (fun s => s.meeting_id == mid) = [] →
      ∃ s1 db1 s2 db2,
        create_ai_summary db mid l1 = .ok (s1, db1) ∧
        create_ai_summary db1 mid l2 = .ok (s2, db2) ∧
        s1.version = 1 ∧ s2.version = 2 ∧ s1.id ≠ s2.id ∧
        db2.summaries.find? (fun x => x.id == s1.id) = some s1 ∧
        db2.summaries.find? (fun x => x.id == s2.id) = some s2) := by
  have hnone : ∀ n : Nat, db.next_id ≤ n →
      db.summaries.find? (fun x => x.id == n) = none := by
    intro n hn
    refine List.find?_eq_none.mpr (fun t ht => ?_)
    simp only [beq_iff_eq]
    exact Nat.ne_of_lt (Nat.lt_of_lt_of_le (hfresh t ht) hn)
  constructor
  · intro s db1 heq
    rw [create_ai_summary_ok db mid m l1 hm] at heq
    injection heq with hpair
    injection hpair with hs hdb
    subst hs
    subst hdb
    refine ⟨rfl, ?_, ?_⟩
    · intro t ht htm
      have hmem : t.version ∈ summaryVersions db mid := by
        refine List.mem_map.mpr ⟨t, List.mem_filter.mpr ⟨ht, ?_⟩, rfl⟩
        simp [htm]
      exact Nat.lt_succ_of_le (mem_le_foldl_max hmem 0)
    · show (db.summaries ++ [newSummary db mid m l1]).find?
          (fun x => x.id == db.next_id) = some (newSummary db mid m l1)
      rw [List.find?_append, hnone db.next_id (Nat.le_refl _), Option.none_or]
      exact List.find?_cons_of_pos _ (by simp [newSummary])
  · intro hflt
    have hmax : maxSummaryVersion db mid = 0 := by
      rw [maxSummaryVersion, summaryVersions, hflt]
      rfl
    have hm1 : (afterSummary db mid m l1).meetings.find?
        (fun x => x.id == mid) = some m := hm
    have hv1 : summaryVersions (afterSummary db mid m l1) mid
        = [maxSummaryVersion db mid + 1] := by
      show ((db.summaries ++ [newSummary db mid m l1]).filter
          (fun s => s.meeting_id == mid)).map MeetingSummary.version = _
      rw [List.filter_append, hflt]
      simp [newSummary, List.filter]
    have hmax1 : maxSummaryVersion (afterSummary db mid m l1) mid
        = maxSummaryVersion db mid + 1 := by
      rw [maxSummaryVersion, hv1]
      simp [List.foldl]
    refine ⟨newSummary db mid m l1, afterSummary db mid m l1,
      newSummary (afterSummary db mid m l1) mid m l2,
      afterSummary (afterSummary db mid m l1) mid m l2,
      create_ai_summary_ok db mid m l1 hm,
      create_ai_summary_ok (afterSummary db mid m l1) mid m l2 hm1,
      ?_, ?_, ?_, ?_, ?_⟩
    · show maxSummaryVersion db mid + 1 = 1
      rw [hmax]
    · show maxSummaryVersion (afterSummary db mid m l1) mid + 1 = 2
      rw [hmax1, hmax]
    · show db.next_id ≠ (afterSummary db mid m l1).next_id
      exact Nat.ne_of_lt (Nat.lt_succ_self _)
    · show ((db.summaries ++ [newSummary db mid m l1])
          ++ [newSummary (afterSummary db mid m l1) mid m l2]).find?
          (fun x => x.id == db.next_id) = some (newSummary db mid m l1)
      rw [List.find?_append, List.find?_append,
        hnone db.next_id (Nat.le_refl _), Option.none_or]
      rw [List.find?_cons_of_pos _ (by simp [newSummary])]
      rfl
    · show ((db.summaries ++ [newSummary db mid m l1])
          ++ [newSummary (afterSummary db mid m l1) mid m l2]).find?
          (fun x => x.id == db.next_id + 1)
          = some (newSummary (afterSummary db mid m l1) mid m l2)
      rw [List.find?_append, List.find?_append,
        hnone (db.next_id + 1) (Nat.le_succ _), Option.none_or]
      rw [List.find?_cons_of_neg _ (by
        simp only [newSummary]
        simp)]
      rw [List.find?_nil, Option.none_or]
      exact List.find?_cons_of_pos _ (by simp [newSummary, afterSummary])

/-- Claim C1 witness: two sequential summarize calls on the stored
meeting of `dbW`, which has no summaries yet. -/
theorem c1_witness :
    ∃ s1 db1 s2 db2,
      create_ai_summary dbW 2 "en" = .ok (s1, db1) ∧
      create_ai_summary db1 2 "he" = .ok (s2, db2) ∧
      s1.version = 1 ∧ s2.version = 2 ∧ s1.id ≠ s2.id ∧
      db2.summaries.find? (fun x => x.id == s1.id) = some s1 ∧
      db2.summaries.find? (fun x => x.id == s2.id) = some s2 :=
  (c1_summarize_versioning dbW 2 mtgW "en" "he" rfl
    (by intro s hs; cases hs)).2 rfl

/-- Claim C4: the Hebrew summary differs from the English one for every
meeting; the Hebrew email body is wrapped in a right-to-left `div`; and
every language code other than "he" produces exactly the "en" summary and
email. -/
theorem c4_language_handling (m : Meeting) (cust : Option Customer)
    (l : String) (hl : l ≠ "he") :
    generate_meeting_summary m "he" ≠ generate_meeting_summary m "en" ∧
    (generate_email_draft m cust "he").body.data.take 15
      = "<div dir=\"rtl\">".data ∧
    generate_meeting_summary m l = generate_meeting_summary m "en" ∧
    generate_email_draft m cust l = generate_email_draft m cust "en" := by
  refine ⟨?_, ?_, ?_, ?_⟩
  · intro heq
    have hHe : (generate_meeting_summary m "he").data.take 3
        = ['#', ' ', 'ס'] :=
      take_pyStripList '#' 'ס' [' '] _ (by decide) (by decide)
    have hEn : (generate_meeting_summary m "en").data.take 3
        = ['#', ' ', 'M'] :=
      take_pyStripList '#' 'M' [' '] _ (by decide) (by decide)
    rw [heq, hEn] at hHe
    exact absurd hHe (by decide)
  · exact take_pyStripList '<' '>' ("div dir=\"rtl\"".data) _
      (by decide) (by decide)
  · unfold generate_meeting_summary
    rw [if_neg hl, if_neg (by decide)]
  · unfold generate_email_draft
    rw [if_neg hl, if_neg (by decide)]

/-- Claim C4 witness: the concrete meeting `mtgW`, its customer, and the
unsupported language code "fr". -/
theorem c4_witness :
    generate_meeting_summary mtgW "he" ≠ generate_meeting_summary mtgW "en" ∧
    (generate_email_draft mtgW (some custW) "he").body.data.take 15
      = "<div dir=\"rtl\">".data ∧
    generate_meeting_summary mtgW "fr" = generate_meeting_summary mtgW "en" ∧
    generate_email_draft mtgW (some custW) "fr"
      = generate_email_draft mtgW (some custW) "en" :=
  c4_language_handling mtgW (some custW) "fr" (by decide)

end CustomerMgmt
